import Mathlib

/-! # arctic_tern_battery: the modem parser interface (`MDM.h`) and the application (`main.cpp`)

A shallow embedding of the parts of `src/C027_Support/MDM.h` and `src/main.cpp`
that the properties below talk about.

Machine integers are embedded as mathematical integers with explicit wrap-around:
a C `int` is an `Int` in `-2^31 .. 2^31-1`, a `uint32_t` / `unsigned int` is a
`Nat` below `2^32`.  The two conversions `toU32` and `toI32` are the usual
two's-complement reinterpretations.
-/

/-! ## 32-bit machine arithmetic -/

/-- Conversion of a C `int` to `unsigned int` (reduction modulo `2^32`). -/
def toU32 (x : Int) : Nat := (x % 4294967296).toNat

/-- Conversion of a 32-bit pattern to a C `int` (two's complement). -/
def toI32 (n : Nat) : Int :=
  if n % 4294967296 < 2147483648 then ((n % 4294967296 : Nat) : Int)
  else ((n % 4294967296 : Nat) : Int) - 4294967296

/-- The C operator `&` on two `int` operands. -/
def int_and (x y : Int) : Int := toI32 (toU32 x &&& toU32 y)

/-- The C operator `|` on two `int` operands. -/
def int_or (x y : Int) : Int := toI32 (toU32 x ||| toU32 y)

/-- The C operator `<<` on an `int` left operand (bits shifted out are lost). -/
def int_shl (x : Int) (k : Nat) : Int := toI32 ((toU32 x <<< k) % 4294967296)

namespace MDMParser

/-! ## `MDM.h`: IP addresses -/

/-- Macro `#define NOIP ((MDMParser::IP)0)`: the "no address" value. -/
def NOIP : Nat := 0

/-- Macro `#define IPADR(a,b,c,d)`: every argument is cast to `IP` (`uint32_t`), shifted
within 32 bits, and the four results are or-ed together. -/
def IPADR (a b c d : Nat) : Nat :=
  (((a % 4294967296) <<< 24) % 4294967296) |||
  (((b % 4294967296) <<< 16) % 4294967296) |||
  (((c % 4294967296) <<< 8) % 4294967296) |||
  (((d % 4294967296) <<< 0) % 4294967296)

/-- Macro `#define IPNUM(ip)`: the four comma-separated values
`(ip>>24)&0xff, (ip>>16)&0xff, (ip>>8)&0xff, (ip>>0)&0xff`, in that order. -/
def IPNUM (ip : Nat) : Nat × Nat × Nat × Nat :=
  ((ip >>> 24) &&& 0xff, (ip >>> 16) &&& 0xff, (ip >>> 8) &&& 0xff, (ip >>> 0) &&& 0xff)

/-- The test `ip == NOIP` that `main` applies to the result of `join`. -/
def isNoIp (ip : Nat) : Bool := ip == NOIP

/-! ## `MDM.h`: the anonymous enum of response codes -/

def NOT_FOUND : Int := 0
def WAIT : Int := -1
def RESP_OK : Int := -2
def RESP_ERROR : Int := -3
def RESP_PROMPT : Int := -4

def TYPE_UNKNOWN : Int := 0x000000
def TYPE_OK : Int := 0x110000
def TYPE_ERROR : Int := 0x120000
def TYPE_RING : Int := 0x210000
def TYPE_CONNECT : Int := 0x220000
def TYPE_NOCARRIER : Int := 0x230000
def TYPE_NODIALTONE : Int := 0x240000
def TYPE_BUSY : Int := 0x250000
def TYPE_NOANSWER : Int := 0x260000
def TYPE_PROMPT : Int := 0x300000
def TYPE_PLUS : Int := 0x400000
def TYPE_TEXT : Int := 0x500000

def TIMEOUT_BLOCKING : Int := -1

/-- Macro `#define LENGTH(x)  (x & 0x00FFFF)`. -/
def LENGTH (x : Int) : Int := int_and x 0x00FFFF

/-- Macro `#define TYPE(x)    (x & 0xFF0000)`. -/
def TYPE (x : Int) : Int := int_and x 0xFF0000

/-- The eleven non-zero line-type codes of the enum, in declaration order. -/
def lineTypes : List Int :=
  [TYPE_OK, TYPE_ERROR, TYPE_RING, TYPE_CONNECT, TYPE_NOCARRIER, TYPE_NODIALTONE,
   TYPE_BUSY, TYPE_NOANSWER, TYPE_PROMPT, TYPE_PLUS, TYPE_TEXT]

end MDMParser

/-! ## `main.cpp`: fuel-gauge byte translation -/

/-- Function `unsigned int transBytes2Int(char msb, char lsb)` of `main.cpp`.

The arguments are the values of the two `char` parameters after integer
promotion: `0..255` where plain `char` is unsigned (the ARM ABI of the mbed
target this program is written for), `-128..127` where it is signed.

    tmp = ((msb << 8) & 0xFF00);
    return ((unsigned int)(tmp + lsb) & 0x0000FFFF);

`tmp` is `unsigned int`, so `tmp + lsb` converts `lsb` to `unsigned int` and adds
modulo `2^32`. -/
def transBytes2Int (msb lsb : Int) : Nat :=
  let tmp : Nat := toU32 (int_and (int_shl msb 8) 0xFF00)
  ((tmp + toU32 lsb) % 4294967296) &&& 0x0000FFFF

namespace MDMParser

/-! ## The line classifier (`_getLine`, `getLine`)

`MDM.h` only declares `_getLine` and `MDMSerial::getLine`; their bodies and the
receive pipe (`Pipe.h`) are not part of the sources.  The definitions of this
section follow the specification of the line classifier (section 4.1 and the
examples of section 8), with the return convention documented in `MDM.h`:
"type and length if something was found, WAIT if not enough data is available,
NOT_FOUND if nothing was found". -/

/-- Carriage return. -/
def CR : Char := Char.ofNat 13

/-- Line feed. -/
def LF : Char := Char.ofNat 10

/-- Modelled from the spec: the table of `_getLine` (body missing) of the
"exact-match short tokens (`OK`, `ERROR`, `RING`, `CONNECT`, `NO CARRIER`,
`NO DIALTONE`, `BUSY`, `NO ANSWER`)", each with the type code `MDM.h` declares
for it. -/
def statusTokens : List (List Char × Int) :=
  [("OK".toList, TYPE_OK), ("ERROR".toList, TYPE_ERROR), ("RING".toList, TYPE_RING),
   ("CONNECT".toList, TYPE_CONNECT), ("NO CARRIER".toList, TYPE_NOCARRIER),
   ("NO DIALTONE".toList, TYPE_NODIALTONE), ("BUSY".toList, TYPE_BUSY),
   ("NO ANSWER".toList, TYPE_NOANSWER)]

/-- Modelled from the spec: the scan of `_getLine` (body missing) for the end of
"one line ending in CRLF": the number of bytes in front of the first CR LF pair,
or `none` when the bytes hold no CR LF pair. -/
def findCRLF : List Char → Option Nat
  | [] => none
  | c :: rest =>
    match rest with
    | [] => none
    | d :: _ => if c = CR ∧ d = LF then some 0 else (findCRLF rest).map (· + 1)

/-- Modelled from the spec: the classification order of `_getLine` (body
missing) for the text of a terminated line: "exact-match short tokens take
priority over generic classification; a line beginning with `+` that is not a
full status token is unsolicited; lines matching none of the above are
free-text". -/
def classifyBody (body : List Char) : Int :=
  match statusTokens.find? (fun p => p.1 == body) with
  | some p => p.2
  | none => if body.head? = some '+' then TYPE_PLUS else TYPE_TEXT

/-- Modelled from the spec: the classification `_getLine` (body missing) makes of
the bytes it may examine.

* no bytes at all: "`NOT_FOUND` if no recognizable line start exists in the
  available bytes";
* a line may open with CR LF, which counts into its length ("the number of bytes
  to consume including delimiters", `classify("\r\nOK\r\n")` is `(ok, 6)`), or
  start directly with its text (`classify("+CSQ: 5,99\r\n")`);
* "a lone `>` is a prompt": the bare prompt character needs no terminator;
* otherwise the line ends at the first CR LF and is classified by its text;
* bytes without a terminating CR LF: "`WAIT` if a line appears to be starting but
  is not yet terminated". -/
def classify (view : List Char) : Int :=
  if view = [] then NOT_FOUND
  else
    let lead : Nat := if view.take 2 = [CR, LF] then 2 else 0
    let rest := view.drop lead
    if rest.head? = some '>' then int_or TYPE_PROMPT ((lead + 1 : Nat) : Int)
    else
      match findCRLF rest with
      | some k => int_or (classifyBody (rest.take k)) ((lead + k + 2 : Nat) : Int)
      | none => WAIT

/-- Outcome of one call of the line classifier: the returned code, the bytes
stored into the caller's buffer, and the bytes left pending in the byte source. -/
structure LineResult where
  code : Int
  buffer : List Char
  pipe : List Char
  deriving DecidableEq

/-- Modelled from the spec: `MDMParser::_getLine(pipe, buffer, length)` (body
missing).  "Given a byte view and a maximum length to examine", the first
`length` pending bytes are classified; on a `(type, length)` result the line is
handed to the caller and its `length` bytes are consumed; on `WAIT` "no bytes are
consumed", and `NOT_FOUND` arises only when there is no byte to examine.  The
pipe is the list of pending bytes, oldest first. -/
def _getLine (pipe : List Char) (length : Nat) : LineResult :=
  let code := classify (pipe.take length)
  if 0 < code then
    ⟨code, pipe.take (LENGTH code).toNat, pipe.drop (LENGTH code).toNat⟩
  else ⟨code, [], pipe⟩

/-- Modelled from the spec: `MDMSerial::getLine` (body missing), which by the
comment in `MDM.h` "usually just calls `_getLine` on the rx buffer pipe". -/
def getLine (rx : List Char) (length : Nat) : LineResult := _getLine rx length

/-- Arrival of further bytes at the byte source. -/
def receive (pipe more : List Char) : List Char := pipe ++ more

/-! ## The socket table

`MDM.h` declares the socket control blocks and the socket operations; the bodies
of the operations are not part of the sources and follow section 4.4 of the
specification. -/

/-- Type `typedef enum { IPPROTO_TCP, IPPROTO_UDP } IpProtocol;` -/
inductive IpProtocol where
  | IPPROTO_TCP
  | IPPROTO_UDP
  deriving DecidableEq

/-- Macro `#define SOCKET_ERROR -1`. -/
def SOCKET_ERROR : Int := -1

/-- Type `typedef enum { SOCK_FREE, SOCK_CREATED, SOCK_CONNECTED } SockState;` -/
inductive SockState where
  | SOCK_FREE
  | SOCK_CREATED
  | SOCK_CONNECTED
  deriving DecidableEq

/-- Type `typedef struct { volatile SockState state; volatile int pending; int timeout_ms; } SockCtrl;` -/
structure SockCtrl where
  state : SockState
  pending : Int
  timeout_ms : Int
  deriving DecidableEq

/-- Member `SockCtrl _sockets[32];`, the fixed-size socket table. -/
abbrev SockTable := Fin 32 → SockCtrl

/-- The valid index range of a device family inside the table: "LISA-C has 6 TCP
and 6 UDP sockets starting at index 18; LISA-U and SARA-G have 7 sockets starting
at index 1" (`MDM.h`).  Its `count` is the number of sockets the table can hand
out, the table capacity. -/
structure SockRange where
  first : Nat
  count : Nat
  deriving DecidableEq

/-- Index range of the LISA-C family. -/
def rangeLisaC : SockRange := ⟨18, 12⟩

/-- Index range of the LISA-U and SARA-G families. -/
def rangeLisaU : SockRange := ⟨1, 7⟩

/-- A table whose slots are all Free. -/
def emptyTable : SockTable := fun _ => ⟨SockState.SOCK_FREE, 0, TIMEOUT_BLOCKING⟩

/-- The slot a handle designates, when the handle is an index of the table. -/
def slotOf (socket : Int) : Option (Fin 32) :=
  if h : 0 ≤ socket ∧ socket.toNat < 32 then some ⟨socket.toNat, h.2⟩ else none

/-- Modelled from the spec: the scan of `socketSocket` (body missing), which
"scans the fixed-size table for a `Free` slot within the device-family's valid
index range": the lowest Free slot among the `count` indices from `first` on. -/
def findFree (t : SockTable) : Nat → Nat → Option (Fin 32)
  | _, 0 => none
  | first, count + 1 =>
    if h : first < 32 then
      if (t ⟨first, h⟩).state = SockState.SOCK_FREE then some ⟨first, h⟩
      else findFree t (first + 1) count
    else none

/-- Modelled from the spec: `MDMParser::socketSocket(ipproto, port)` (body
missing).  It "scans the fixed-size table for a `Free` slot within the
device-family's valid index range, issues the AT socket-create command, and on a
successful terminal response marks the slot `Created` and returns its handle; no
free slot or a modem-level error yields `SOCKET_ERROR`".  `resp` is the terminal
response of the modem to the socket-create command; the protocol and the port
only shape the text of that command.  The result is the returned handle and the
table afterwards. -/
def socketSocket (r : SockRange) (t : SockTable) (_ipproto : IpProtocol) (_port : Int)
    (resp : Int) : Int × SockTable :=
  match findFree t r.first r.count with
  | none => (SOCKET_ERROR, t)
  | some s =>
    if resp = RESP_OK then
      ((s.val : Int), Function.update t s { t s with state := SockState.SOCK_CREATED })
    else (SOCKET_ERROR, t)

/-- A run of allocation attempts, each given with its protocol, port and the
terminal response the modem gives to it: the handles returned, in order, and the
table afterwards. -/
def socketSockets (r : SockRange) :
    SockTable → List (IpProtocol × Int × Int) → List Int × SockTable
  | t, [] => ([], t)
  | t, q :: qs =>
    let a := socketSocket r t q.1 q.2.1 q.2.2
    let rest := socketSockets r a.2 qs
    (a.1 :: rest.1, rest.2)

/-- The shape of the table after `k` successful allocations from an all-Free
table: the first `k` slots of the valid range are in use, the remaining slots of
the range are Free. -/
def AllocatedUpTo (r : SockRange) (k : Nat) (t : SockTable) : Prop :=
  (∀ i : Fin 32, r.first ≤ i.val → i.val < r.first + k →
      (t i).state ≠ SockState.SOCK_FREE) ∧
  (∀ i : Fin 32, r.first + k ≤ i.val → i.val < r.first + r.count →
      (t i).state = SockState.SOCK_FREE)

/-- Modelled from the spec: `MDMParser::socketClose(socket)` (body missing).
"`close` transitions `Connected → Created`" and is "idempotent on an
already-`Free` handle (no-op, not an error)"; `MDM.h` documents it as closing "a
connected socket", so a handle outside the table or a slot that is Created but
not Connected is not closed successfully.  `resp` is the terminal response of the
modem to the close command. -/
def socketClose (t : SockTable) (socket : Int) (resp : Int) : Bool × SockTable :=
  match slotOf socket with
  | none => (false, t)
  | some s =>
    match (t s).state with
    | SockState.SOCK_FREE => (true, t)
    | SockState.SOCK_CREATED => (false, t)
    | SockState.SOCK_CONNECTED =>
      if resp = RESP_OK then
        (true, Function.update t s { t s with state := SockState.SOCK_CREATED })
      else (false, t)

/-- Modelled from the spec: `MDMParser::socketSend(socket, buf, len)` (body
missing), the stream send.  It is "valid only while in an appropriate state
(`Connected` for stream sends/receives)" and returns "`SOCKET_ERROR` on an invalid
handle or state"; otherwise it returns "the size written or SOCKET_ERROR on
failure" (`MDM.h`), as the terminal response `resp` of the modem decides. -/
def socketSend (t : SockTable) (socket : Int) (_buf : List Char) (len : Int)
    (resp : Int) : Int :=
  match slotOf socket with
  | none => SOCKET_ERROR
  | some s =>
    if (t s).state = SockState.SOCK_CONNECTED then
      if resp = RESP_OK then len else SOCKET_ERROR
    else SOCKET_ERROR

end MDMParser

/-! ## `MDM.h`: the overridable wait hook and the serial purge -/

namespace MDMParser

/-- Default `virtual void wait_ms(int ms) { if (ms) ::wait_ms(ms); }` of
`MDMParser`.  The global `::wait_ms` belongs to the platform library and is not
part of the sources: it is the parameter `platformWait`, acting on the state `σ`
of the platform (its clock included). -/
def wait_ms {σ : Type} (platformWait : Int → σ → σ) (ms : Int) (s : σ) : σ :=
  if ms ≠ 0 then platformWait ms s else s

/-- A platform state that is only a millisecond clock, with a delay that lets
`ms` milliseconds pass. -/
def clockWait (ms : Int) (elapsed : Int) : Int := elapsed + ms

end MDMParser

namespace MDMSerial

/-- Modelled from the spec: `readable()` of the receive pipe (`SerialPipe.h` is
missing).  The byte source "supplies bytes already received from the modem"; the
pipe is the list of pending bytes, oldest first, and it is readable when a byte
is pending. -/
def readable (rx : List Char) : Bool := !rx.isEmpty

/-- Modelled from the spec: `getc()` of the receive pipe (`SerialPipe.h` is
missing): it takes the oldest pending byte out of the pipe and returns it. -/
def getc (rx : List Char) : Option Char × List Char := (rx.head?, rx.tail)

/-- The loop `while (readable()) getc();` of `MDMSerial::purge`, run for at most
`fuel` evaluations of its condition, with no byte arriving meanwhile.  The result
is the bytes taken out, in order, and the pipe on return; `none` when the fuel
runs out before the loop is left. -/
def purgeLoop : Nat → List Char → List Char → Option (List Char × List Char)
  | 0, _, _ => none
  | fuel + 1, removed, rx =>
    if readable rx then
      purgeLoop fuel (removed ++ (getc rx).1.toList) (getc rx).2
    else some (removed, rx)

/-- Body of `virtual void purge(void)` of `MDMSerial`. -/
def purge (fuel : Nat) (rx : List Char) : Option (List Char × List Char) :=
  purgeLoop fuel [] rx

end MDMSerial

/-! ## `main.cpp`: reading the fuel gauge -/

/-- The block transfers `LM4F120_SWI2CMST_writeBlock(numBytes, multi, tx)` and
`LM4F120_SWI2CMST_readBlock(bytes, Rxdata)` of `bq27510_i2c.h`, which is not part
of the sources: what a call returns, and what a read leaves in `Rxdata`, is given
from outside. -/
structure I2CBus where
  writeBlock : Nat → Nat → List Int → Int
  readBlock : Nat → List Int → Int × List Int

/-- Function `int LM4F120_bq27510_read(char cmd, unsigned int bytes)` of
`main.cpp`, with the global `Rxdata` passed in and out:

    tx[0] = cmd;
    ret = LM4F120_SWI2CMST_writeBlock(1, 1, tx);
    if(ret < 0){ printf(...); return ret; }
    ret = LM4F120_SWI2CMST_readBlock(bytes, Rxdata);
    if(ret < 0){ printf(...); return ret; }
    return 0;
-/
def LM4F120_bq27510_read (bus : I2CBus) (cmd : Int) (bytes : Nat) (Rxdata : List Int) :
    Int × List Int :=
  let tx : List Int := [cmd]
  let ret := bus.writeBlock 1 1 tx
  if ret < 0 then (ret, Rxdata)
  else
    let rd := bus.readBlock bytes Rxdata
    if rd.1 < 0 then (rd.1, rd.2)
    else (0, rd.2)

/-- A bus whose command write returns `w` and whose block read returns `r`,
leaving `Rxdata` as it is. -/
def constBus (w r : Int) : I2CBus :=
  ⟨fun _ _ _ => w, fun _ rx => (r, rx)⟩

/-- The C operator `-` on two `unsigned int` operands (subtraction modulo `2^32`). -/
def u32_sub (a b : Nat) : Nat :=
  (a % 4294967296 + 4294967296 - b % 4294967296) % 4294967296

/-- The statement `temperature = (transBytes2Int(Rxdata[1], Rxdata[0]))/10 - 273;`
of `main`: the division and the subtraction are done in `unsigned int` (the
constant `273` is converted), and the result is converted to the `int`
`temperature`. -/
def temperature (Rxdata1 Rxdata0 : Int) : Int :=
  toI32 (u32_sub (transBytes2Int Rxdata1 Rxdata0 / 10) (toU32 273))

/-! ## `main.cpp`: the modem calls of `main`

The part of `main` in front of the measurement loop calls the modem driver in a
fixed program order; which calls are made depends only on what earlier calls
returned.  Every call site is executed at most once, so an execution is fixed by
one reply per call site whose result is tested, and is observed as the list of
calls made, in order. -/

namespace Main

open MDMParser

/-- A call of `main` into the modem driver, with the socket handle passed and the
result returned where the program tests it. -/
inductive Call where
  | init (ret : Bool)
  | dumpDevStatus
  | registerNet (ret : Bool)
  | dumpNetStatus
  | join (ip : Nat)
  | dumpIp
  | socketSocket (ipproto : IpProtocol) (ret : Int)
  | socketSetBlocking (socket : Int)
  | socketConnect (socket : Int) (ret : Bool)
  | socketSend (socket : Int)
  | socketRecv (socket : Int)
  | socketClose (socket : Int)
  | socketFree (socket : Int)
  | gethostbyname
  | socketSendTo (socket : Int)
  | socketRecvFrom (socket : Int)
  | disconnect
  | ussdCommand
  deriving DecidableEq

/-- What the modem driver returns at the call sites of `main` whose result
decides the control flow. -/
structure Replies where
  init : Bool
  registerNet : Bool
  join : Nat
  httpSocket : Int
  httpConnect : Bool
  tcpSocket : Int
  tcpConnect : Bool
  udpSocket : Int

/-- Lines 80-95 of `main.cpp`, the HTTP request:

    int socket = mdm.socketSocket(MDMParser::IPPROTO_TCP);
    if (socket >= 0) {
        mdm.socketSetBlocking(socket, 10000);
        if (mdm.socketConnect(socket, "mbed.org", 80)) {
            mdm.socketSend(...); ret = mdm.socketRecv(...); mdm.socketClose(socket);
        }
        mdm.socketFree(socket);
    }
-/
def httpCalls (e : Replies) : List Call :=
  let socket := e.httpSocket
  Call.socketSocket IpProtocol.IPPROTO_TCP socket ::
    (if 0 ≤ socket then
      [Call.socketSetBlocking socket, Call.socketConnect socket e.httpConnect] ++
        (if e.httpConnect then
          [Call.socketSend socket, Call.socketRecv socket, Call.socketClose socket]
        else []) ++
        [Call.socketFree socket]
    else [])

/-- Lines 128-146 of `main.cpp`, the TCP echo test; `socketFree` stands inside the
block of `if (socket >= 0)`. -/
def tcpEchoCalls (e : Replies) : List Call :=
  let socket := e.tcpSocket
  Call.socketSocket IpProtocol.IPPROTO_TCP socket ::
    (if 0 ≤ socket then
      [Call.socketSetBlocking socket, Call.socketConnect socket e.tcpConnect] ++
        (if e.tcpConnect then
          [Call.socketSend socket, Call.socketRecv socket, Call.socketClose socket]
        else []) ++
        [Call.socketFree socket]
    else [])

/-- Lines 148-163 of `main.cpp`, the UDP echo test:

    socket = mdm.socketSocket(MDMParser::IPPROTO_UDP, port);
    if (socket >= 0) {
        mdm.socketSetBlocking(socket, 10000);
        ret = mdm.socketSendTo(socket, ip, port, data, sizeof(data)-1);
        ret = mdm.socketRecvFrom(socket, &ip, &port, buf, sizeof(buf)-1);
        mdm.socketFree(socket);
    }
-/
def udpEchoCalls (e : Replies) : List Call :=
  let socket := e.udpSocket
  Call.socketSocket IpProtocol.IPPROTO_UDP socket ::
    (if 0 ≤ socket then
      [Call.socketSetBlocking socket, Call.socketSendTo socket, Call.socketRecvFrom socket,
        Call.socketFree socket]
    else [])

/-- The three socket tests of `main` with the host lookup of line 99 between the
first and the second. -/
def socketCalls (e : Replies) : List Call :=
  httpCalls e ++ [Call.gethostbyname] ++ tcpEchoCalls e ++ udpEchoCalls e

/-- The calls of the `else` branch of `if (ip == NOIP)`, lines 78-166:
`dumpIp`, the socket tests, and `disconnect`. -/
def joinedCalls (e : Replies) : List Call :=
  Call.dumpIp :: (socketCalls e ++ [Call.disconnect])

/-- The modem calls of `main`, lines 57-176, in the order they are made:

    bool mdmOk = mdm.init(SIMPIN, &devStatus);
    mdm.dumpDevStatus(&devStatus);
    if (mdmOk) { mdmOk = mdm.registerNet(&netStatus); mdm.dumpNetStatus(&netStatus); }
    if (mdmOk) {
        MDMParser::IP ip = mdm.join(APN,USERNAME,PASSWORD);
        if (ip == NOIP) printf("Not able to join network");
        else { ... mdm.disconnect(); }
        ret = mdm.ussdCommand(ussd, buf);
    }
-/
def modemCalls (e : Replies) : List Call :=
  let mdmOk := e.init
  let mdmOk2 := if mdmOk then e.registerNet else mdmOk
  [Call.init e.init, Call.dumpDevStatus] ++
    (if mdmOk then [Call.registerNet e.registerNet, Call.dumpNetStatus] else []) ++
    (if mdmOk2 then
      [Call.join e.join] ++ (if isNoIp e.join then [] else joinedCalls e) ++
        [Call.ussdCommand]
    else [])

/-- The lifecycle stage a call belongs to: 0 init, 1 registerNet, 2 join,
3 socket operations and host lookup, 4 disconnect, 5 what follows. -/
def phase : Call → Nat
  | Call.init _ => 0
  | Call.dumpDevStatus => 0
  | Call.registerNet _ => 1
  | Call.dumpNetStatus => 1
  | Call.join _ => 2
  | Call.dumpIp => 2
  | Call.socketSocket _ _ => 3
  | Call.socketSetBlocking _ => 3
  | Call.socketConnect _ _ => 3
  | Call.socketSend _ => 3
  | Call.socketRecv _ => 3
  | Call.socketClose _ => 3
  | Call.socketFree _ => 3
  | Call.gethostbyname => 3
  | Call.socketSendTo _ => 3
  | Call.socketRecvFrom _ => 3
  | Call.disconnect => 4
  | Call.ussdCommand => 5

/-- The lifecycle steps that are single calls: `init`, `registerNet`, `join` and
`disconnect`. -/
def isStep : Call → Bool
  | Call.init _ => true
  | Call.dumpDevStatus => false
  | Call.registerNet _ => true
  | Call.dumpNetStatus => false
  | Call.join _ => true
  | Call.dumpIp => false
  | Call.socketSocket _ _ => false
  | Call.socketSetBlocking _ => false
  | Call.socketConnect _ _ => false
  | Call.socketSend _ => false
  | Call.socketRecv _ => false
  | Call.socketClose _ => false
  | Call.socketFree _ => false
  | Call.gethostbyname => false
  | Call.socketSendTo _ => false
  | Call.socketRecvFrom _ => false
  | Call.disconnect => true
  | Call.ussdCommand => false

/-- The socket handle a call is made on, for the calls that take one. -/
def handleOf : Call → Option Int
  | Call.init _ => none
  | Call.dumpDevStatus => none
  | Call.registerNet _ => none
  | Call.dumpNetStatus => none
  | Call.join _ => none
  | Call.dumpIp => none
  | Call.socketSocket _ _ => none
  | Call.socketSetBlocking s => some s
  | Call.socketConnect s _ => some s
  | Call.socketSend s => some s
  | Call.socketRecv s => some s
  | Call.socketClose s => some s
  | Call.socketFree s => some s
  | Call.gethostbyname => none
  | Call.socketSendTo s => some s
  | Call.socketRecvFrom s => some s
  | Call.disconnect => none
  | Call.ussdCommand => none

/-- What an observer of the calls knows about the sockets of `main`: the handle
allocated and not yet freed, if any, and whether `socketConnect` returned true on
it since. -/
structure Held where
  socket : Option Int
  connected : Bool
  deriving DecidableEq

/-- One step of the observer; `none` reports a breach of the socket discipline.

* `socketSocket` is allowed only while no socket is held; a result `>= 0` is held
  from then on;
* every call on a handle must be on the handle held (so never on a negative one);
* `socketConnect` records its result; `socketClose` is allowed only after a
  `socketConnect` on the handle returned true;
* `socketFree` on the handle held releases it;
* `disconnect` is allowed only while no socket is held. -/
def Held.step (m : Held) : Call → Option Held
  | Call.init _ => some m
  | Call.dumpDevStatus => some m
  | Call.registerNet _ => some m
  | Call.dumpNetStatus => some m
  | Call.join _ => some m
  | Call.dumpIp => some m
  | Call.socketSocket _ ret =>
    if m.socket = none then some ⟨if 0 ≤ ret then some ret else none, false⟩ else none
  | Call.socketSetBlocking s => if m.socket = some s then some m else none
  | Call.socketConnect s ret => if m.socket = some s then some ⟨m.socket, ret⟩ else none
  | Call.socketSend s => if m.socket = some s then some m else none
  | Call.socketRecv s => if m.socket = some s then some m else none
  | Call.socketClose s =>
    if m.socket = some s ∧ m.connected = true then some ⟨m.socket, false⟩ else none
  | Call.socketFree s => if m.socket = some s then some ⟨none, false⟩ else none
  | Call.gethostbyname => some m
  | Call.socketSendTo s => if m.socket = some s then some m else none
  | Call.socketRecvFrom s => if m.socket = some s then some m else none
  | Call.disconnect => if m.socket = none then some m else none
  | Call.ussdCommand => some m

/-- The observer run over a list of calls. -/
def observe : Held → List Call → Option Held
  | m, [] => some m
  | m, c :: cs =>
    match m.step c with
    | none => none
    | some m2 => observe m2 cs

/-- The replies of a run in which every call succeeds. -/
def allGood : Replies := ⟨true, true, IPADR 10 0 0 2, 1, true, 1, true, 2⟩

end Main

/-! ## Arithmetic of the bit operations -/

theorem and_ff_eq_mod (x : Nat) : x &&& 0xff = x % 256 :=
  Nat.and_pow_two_sub_one_eq_mod x 8

theorem and_ffff_eq_mod (x : Nat) : x &&& 0xFFFF = x % 65536 :=
  Nat.and_pow_two_sub_one_eq_mod x 16

/-- Or-ing a value below `2^k` into a value shifted left by `k` adds them. -/
theorem shl_or_eq_add (a b k : Nat) (hb : b < 2 ^ k) : (a <<< k) ||| b = a * 2 ^ k + b := by
  rw [Nat.shiftLeft_eq, Nat.mul_comm a, ← Nat.mul_add_lt_is_or hb]

/-- Masking with `w` one-bits placed `k` bits up selects the digits `k .. k+w-1`. -/
theorem and_shifted_mask (x k w : Nat) :
    x &&& ((2 ^ w - 1) <<< k) = ((x >>> k) % 2 ^ w) <<< k := by
  apply Nat.eq_of_testBit_eq
  intro j
  simp only [Nat.testBit_and, Nat.testBit_shiftLeft, Nat.testBit_two_pow_sub_one,
    Nat.testBit_mod_two_pow, Nat.testBit_shiftRight]
  by_cases hj : k ≤ j
  · have e : k + (j - k) = j := by omega
    simp only [e, ge_iff_le, hj, decide_True, Bool.true_and]
    exact Bool.and_comm _ _
  · simp [hj]

theorem and_ff0000 (x : Nat) : x &&& 0xFF0000 = (x / 65536 % 256) * 65536 := by
  have h := and_shifted_mask x 16 8
  rw [Nat.shiftLeft_eq, Nat.shiftLeft_eq, Nat.shiftRight_eq_div_pow] at h
  norm_num at h
  exact h

theorem and_ff00 (x : Nat) : x &&& 0xFF00 = (x / 256 % 256) * 256 := by
  have h := and_shifted_mask x 8 8
  rw [Nat.shiftLeft_eq, Nat.shiftLeft_eq, Nat.shiftRight_eq_div_pow] at h
  norm_num at h
  exact h

theorem toU32_natCast (m : Nat) : toU32 (m : Int) = m % 4294967296 := by
  unfold toU32
  omega

theorem toI32_of_lt (n : Nat) (h : n < 2147483648) : toI32 n = n := by
  unfold toI32
  have e : n % 4294967296 = n := by omega
  rw [e, if_pos h]

namespace MDMParser

theorem IPADR_eq_sum (a b c d : Nat) (ha : a < 256) (hb : b < 256) (hc : c < 256)
    (hd : d < 256) : IPADR a b c d = a * 2 ^ 24 + b * 2 ^ 16 + c * 2 ^ 8 + d := by
  unfold IPADR
  have e1 : (a % 4294967296) <<< 24 % 4294967296 = a <<< 24 := by
    rw [Nat.shiftLeft_eq, Nat.shiftLeft_eq]; omega
  have e2 : (b % 4294967296) <<< 16 % 4294967296 = b <<< 16 := by
    rw [Nat.shiftLeft_eq, Nat.shiftLeft_eq]; omega
  have e3 : (c % 4294967296) <<< 8 % 4294967296 = c <<< 8 := by
    rw [Nat.shiftLeft_eq, Nat.shiftLeft_eq]; omega
  have e4 : (d % 4294967296) <<< 0 % 4294967296 = d := by
    rw [Nat.shiftLeft_eq]; omega
  rw [e1, e2, e3, e4, Nat.lor_assoc, Nat.lor_assoc]
  rw [shl_or_eq_add c d 8 (by omega), shl_or_eq_add b _ 16 (by omega),
    shl_or_eq_add a _ 24 (by omega)]
  omega

theorem IPNUM_eq_digits (ip : Nat) :
    IPNUM ip = (ip / 2 ^ 24 % 256, ip / 2 ^ 16 % 256, ip / 2 ^ 8 % 256, ip % 256) := by
  simp only [IPNUM, and_ff_eq_mod, Nat.shiftRight_eq_div_pow]
  simp

/-- The encoding `T | n` of a type code `T = k * 2^16` (`k < 128`) and a length
`n < 2^16`, read back through `TYPE` and `LENGTH`. -/
theorem type_length_of_or (k m : Nat) (hk : k < 128) (hm : m < 65536) :
    TYPE (int_or ((k * 65536 : Nat) : Int) (m : Int)) = ((k * 65536 : Nat) : Int) ∧
    LENGTH (int_or ((k * 65536 : Nat) : Int) (m : Int)) = (m : Int) := by
  have hor : k * 65536 ||| m = k * 65536 + m := by
    have h := shl_or_eq_add k m 16 (by omega)
    rw [Nat.shiftLeft_eq] at h
    norm_num at h
    exact h
  have e : int_or ((k * 65536 : Nat) : Int) (m : Int) = ((k * 65536 + m : Nat) : Int) := by
    unfold int_or
    rw [toU32_natCast, toU32_natCast]
    have e1 : k * 65536 % 4294967296 = k * 65536 := by omega
    have e2 : m % 4294967296 = m := by omega
    rw [e1, e2, hor]
    exact toI32_of_lt _ (by omega)
  have c1 : toU32 (0xFF0000 : Int) = 0xFF0000 := by decide
  have c2 : toU32 (0x00FFFF : Int) = 0xFFFF := by decide
  rw [e]
  unfold TYPE LENGTH int_and
  rw [toU32_natCast, c1, c2, and_ff0000, and_ffff_eq_mod]
  constructor
  · rw [toI32_of_lt _ (by omega)]
    omega
  · rw [toI32_of_lt _ (by omega)]
    omega

end MDMParser

/-! ## Properties of the IP macros and of the line-result encoding -/

namespace MDMParser

/-- C1: for each of the eleven non-zero line-type codes `T` and every length `n`
with `0 <= n <= 0xFFFF`, `TYPE(T | n) = T` and `LENGTH(T | n) = n`: the encoded
result of `getLine` carries its (type, length) pair without loss. -/
theorem TYPE_LENGTH_of_encoded (T n : Int) (hT : T ∈ lineTypes) (h0 : 0 ≤ n)
    (h1 : n ≤ 0xFFFF) : TYPE (int_or T n) = T ∧ LENGTH (int_or T n) = n := by
  obtain ⟨m, rfl⟩ := Int.eq_ofNat_of_zero_le h0
  have hm : m < 65536 := by omega
  simp only [lineTypes, List.mem_cons, List.mem_singleton, List.not_mem_nil, or_false] at hT
  rcases hT with rfl | rfl | rfl | rfl | rfl | rfl | rfl | rfl | rfl | rfl | rfl
  · exact type_length_of_or 0x11 m (by decide) hm
  · exact type_length_of_or 0x12 m (by decide) hm
  · exact type_length_of_or 0x21 m (by decide) hm
  · exact type_length_of_or 0x22 m (by decide) hm
  · exact type_length_of_or 0x23 m (by decide) hm
  · exact type_length_of_or 0x24 m (by decide) hm
  · exact type_length_of_or 0x25 m (by decide) hm
  · exact type_length_of_or 0x26 m (by decide) hm
  · exact type_length_of_or 0x30 m (by decide) hm
  · exact type_length_of_or 0x40 m (by decide) hm
  · exact type_length_of_or 0x50 m (by decide) hm

theorem TYPE_LENGTH_of_encoded_witness :
    TYPE (int_or TYPE_OK 6) = TYPE_OK ∧ LENGTH (int_or TYPE_OK 6) = 6 :=
  TYPE_LENGTH_of_encoded TYPE_OK 6 (by simp [lineTypes]) (by decide) (by decide)

/-- C4: for all octets `a, b, c, d` in `0..255`, `IPADR(a,b,c,d)` is the 32-bit
unsigned value `a*2^24 + b*2^16 + c*2^8 + d`: the dotted quad is packed
high-to-low, `a` in the most significant byte and `d` in the least. -/
theorem IPADR_packs_high_to_low (a b c d : Nat) (ha : a ≤ 255) (hb : b ≤ 255)
    (hc : c ≤ 255) (hd : d ≤ 255) :
    IPADR a b c d = a * 2 ^ 24 + b * 2 ^ 16 + c * 2 ^ 8 + d ∧ IPADR a b c d < 2 ^ 32 := by
  have h := IPADR_eq_sum a b c d (by omega) (by omega) (by omega) (by omega)
  refine ⟨h, ?_⟩
  rw [h]
  omega

theorem IPADR_packs_high_to_low_witness :
    IPADR 192 168 1 20 = 192 * 2 ^ 24 + 168 * 2 ^ 16 + 1 * 2 ^ 8 + 20 ∧
      IPADR 192 168 1 20 < 2 ^ 32 :=
  IPADR_packs_high_to_low 192 168 1 20 (by decide) (by decide) (by decide) (by decide)

/-- C5: for all octets `a, b, c, d` in `0..255`, the four values produced by
`IPNUM(IPADR(a,b,c,d))` are `a, b, c, d` in that order. -/
theorem IPNUM_IPADR (a b c d : Nat) (ha : a ≤ 255) (hb : b ≤ 255) (hc : c ≤ 255)
    (hd : d ≤ 255) : IPNUM (IPADR a b c d) = (a, b, c, d) := by
  rw [IPNUM_eq_digits, IPADR_eq_sum a b c d (by omega) (by omega) (by omega) (by omega)]
  have e1 : (a * 2 ^ 24 + b * 2 ^ 16 + c * 2 ^ 8 + d) / 2 ^ 24 % 256 = a := by omega
  have e2 : (a * 2 ^ 24 + b * 2 ^ 16 + c * 2 ^ 8 + d) / 2 ^ 16 % 256 = b := by omega
  have e3 : (a * 2 ^ 24 + b * 2 ^ 16 + c * 2 ^ 8 + d) / 2 ^ 8 % 256 = c := by omega
  have e4 : (a * 2 ^ 24 + b * 2 ^ 16 + c * 2 ^ 8 + d) % 256 = d := by omega
  rw [e1, e2, e3, e4]

theorem IPNUM_IPADR_witness : IPNUM (IPADR 10 0 200 255) = (10, 0, 200, 255) :=
  IPNUM_IPADR 10 0 200 255 (by decide) (by decide) (by decide) (by decide)

/-- C6: for every 32-bit value `ip`, each of the four values produced by
`IPNUM(ip)` lies in `0..255`, and `IPADR` applied to those four values returns
`ip`: packing and unpacking are inverse on the whole 32-bit range. -/
theorem IPADR_IPNUM (ip : Nat) (hip : ip < 2 ^ 32) :
    (IPNUM ip).1 ≤ 255 ∧ (IPNUM ip).2.1 ≤ 255 ∧ (IPNUM ip).2.2.1 ≤ 255 ∧
      (IPNUM ip).2.2.2 ≤ 255 ∧
      IPADR (IPNUM ip).1 (IPNUM ip).2.1 (IPNUM ip).2.2.1 (IPNUM ip).2.2.2 = ip := by
  rw [IPNUM_eq_digits]
  dsimp only
  refine ⟨by omega, by omega, by omega, by omega, ?_⟩
  rw [IPADR_eq_sum _ _ _ _ (by omega) (by omega) (by omega) (by omega)]
  omega

theorem IPADR_IPNUM_witness :
    (IPNUM 3232235796).1 ≤ 255 ∧ (IPNUM 3232235796).2.1 ≤ 255 ∧
      (IPNUM 3232235796).2.2.1 ≤ 255 ∧ (IPNUM 3232235796).2.2.2 ≤ 255 ∧
      IPADR (IPNUM 3232235796).1 (IPNUM 3232235796).2.1 (IPNUM 3232235796).2.2.1
        (IPNUM 3232235796).2.2.2 = 3232235796 :=
  IPADR_IPNUM 3232235796 (by decide)

/-- C7: for all octets `a, b, c, d` in `0..255`, `IPADR(a,b,c,d)` equals the
no-address value `NOIP` exactly when `a = b = c = d = 0`; every other dotted quad
packs to a value on which the failure test `ip == NOIP` of `main` is false. -/
theorem IPADR_eq_NOIP_iff (a b c d : Nat) (ha : a ≤ 255) (hb : b ≤ 255) (hc : c ≤ 255)
    (hd : d ≤ 255) :
    (IPADR a b c d = NOIP ↔ a = 0 ∧ b = 0 ∧ c = 0 ∧ d = 0) ∧
      (¬ (a = 0 ∧ b = 0 ∧ c = 0 ∧ d = 0) → isNoIp (IPADR a b c d) = false) := by
  have h := IPADR_eq_sum a b c d (by omega) (by omega) (by omega) (by omega)
  have key : IPADR a b c d = NOIP ↔ a = 0 ∧ b = 0 ∧ c = 0 ∧ d = 0 := by
    rw [h, NOIP]
    omega
  refine ⟨key, fun hne => ?_⟩
  unfold isNoIp
  simp only [beq_eq_false_iff_ne, ne_eq]
  exact fun e => hne (key.mp e)

theorem IPADR_eq_NOIP_iff_witness :
    (IPADR 0 0 0 1 = NOIP ↔ (0 : Nat) = 0 ∧ (0 : Nat) = 0 ∧ (0 : Nat) = 0 ∧ (1 : Nat) = 0) ∧
      (¬ ((0 : Nat) = 0 ∧ (0 : Nat) = 0 ∧ (0 : Nat) = 0 ∧ (1 : Nat) = 0) →
        isNoIp (IPADR 0 0 0 1) = false) :=
  IPADR_eq_NOIP_iff 0 0 0 1 (by decide) (by decide) (by decide) (by decide)

end MDMParser

/-! ## Properties of the fuel-gauge byte translation -/

/-- C10: for all byte values `msb` and `lsb`, each taken as its unsigned 8-bit
value `0..255`, `transBytes2Int(msb, lsb)` returns `256*msb + lsb`, a value in
`0..65535`: `msb` is the high byte and `lsb` the low byte of the result. -/
theorem transBytes2Int_eq (msb lsb : Nat) (hm : msb ≤ 255) (hl : lsb ≤ 255) :
    transBytes2Int (msb : Int) (lsb : Int) = 256 * msb + lsb ∧
      transBytes2Int (msb : Int) (lsb : Int) ≤ 65535 := by
  have c1 : toU32 (0xFF00 : Int) = 0xFF00 := by decide
  have e1 : int_shl (msb : Int) 8 = ((msb * 256 : Nat) : Int) := by
    unfold int_shl
    rw [toU32_natCast, Nat.shiftLeft_eq]
    have e : msb % 4294967296 * 2 ^ 8 % 4294967296 = msb * 256 := by omega
    rw [e]
    exact toI32_of_lt _ (by omega)
  have e2 : int_and ((msb * 256 : Nat) : Int) 0xFF00 = ((msb * 256 : Nat) : Int) := by
    unfold int_and
    rw [toU32_natCast, c1, and_ff00]
    have e : msb * 256 % 4294967296 / 256 % 256 * 256 = msb * 256 := by omega
    rw [e]
    exact toI32_of_lt _ (by omega)
  have e3 : transBytes2Int (msb : Int) (lsb : Int) = 256 * msb + lsb := by
    unfold transBytes2Int
    simp only [e1, e2, toU32_natCast, and_ffff_eq_mod]
    omega
  exact ⟨e3, by omega⟩

theorem transBytes2Int_eq_witness :
    transBytes2Int ((11 : Nat) : Int) ((164 : Nat) : Int) = 256 * 11 + 164 ∧
      transBytes2Int ((11 : Nat) : Int) ((164 : Nat) : Int) ≤ 65535 :=
  transBytes2Int_eq 11 164 (by decide) (by decide)

/-! ## Properties of the line classifier -/

namespace MDMParser

/-- C2: the line classifier applied to a buffer holding exactly the 6 bytes
CR LF `O` `K` CR LF returns type ok with length 6 (`TYPE_OK | 6`), and applied to
the 9 bytes CR LF `E` `R` `R` `O` `R` CR LF returns type error with length 9
(`TYPE_ERROR | 9`); the caller's buffer is at least as long as the line. -/
theorem getLine_OK_and_ERROR (n m : Nat) (hn : 6 ≤ n) (hm : 9 ≤ m) :
    ((_getLine [CR, LF, 'O', 'K', CR, LF] n).code = int_or TYPE_OK 6 ∧
      (getLine [CR, LF, 'O', 'K', CR, LF] n).code = int_or TYPE_OK 6 ∧
      TYPE (getLine [CR, LF, 'O', 'K', CR, LF] n).code = TYPE_OK ∧
      LENGTH (getLine [CR, LF, 'O', 'K', CR, LF] n).code = 6) ∧
    ((_getLine [CR, LF, 'E', 'R', 'R', 'O', 'R', CR, LF] m).code = int_or TYPE_ERROR 9 ∧
      (getLine [CR, LF, 'E', 'R', 'R', 'O', 'R', CR, LF] m).code = int_or TYPE_ERROR 9 ∧
      TYPE (getLine [CR, LF, 'E', 'R', 'R', 'O', 'R', CR, LF] m).code = TYPE_ERROR ∧
      LENGTH (getLine [CR, LF, 'E', 'R', 'R', 'O', 'R', CR, LF] m).code = 9) := by
  have e1 : List.take n [CR, LF, 'O', 'K', CR, LF] = [CR, LF, 'O', 'K', CR, LF] :=
    List.take_of_length_le (by simpa using hn)
  have e2 : List.take m [CR, LF, 'E', 'R', 'R', 'O', 'R', CR, LF] =
      [CR, LF, 'E', 'R', 'R', 'O', 'R', CR, LF] :=
    List.take_of_length_le (by simpa using hm)
  unfold getLine _getLine
  rw [e1, e2]
  decide

theorem getLine_OK_and_ERROR_witness :
    ((_getLine [CR, LF, 'O', 'K', CR, LF] 6).code = int_or TYPE_OK 6 ∧
      (getLine [CR, LF, 'O', 'K', CR, LF] 6).code = int_or TYPE_OK 6 ∧
      TYPE (getLine [CR, LF, 'O', 'K', CR, LF] 6).code = TYPE_OK ∧
      LENGTH (getLine [CR, LF, 'O', 'K', CR, LF] 6).code = 6) ∧
    ((_getLine [CR, LF, 'E', 'R', 'R', 'O', 'R', CR, LF] 9).code = int_or TYPE_ERROR 9 ∧
      (getLine [CR, LF, 'E', 'R', 'R', 'O', 'R', CR, LF] 9).code = int_or TYPE_ERROR 9 ∧
      TYPE (getLine [CR, LF, 'E', 'R', 'R', 'O', 'R', CR, LF] 9).code = TYPE_ERROR ∧
      LENGTH (getLine [CR, LF, 'E', 'R', 'R', 'O', 'R', CR, LF] 9).code = 9) :=
  getLine_OK_and_ERROR 6 9 (by decide) (by decide)

/-- C3: whenever the line classifier returns `WAIT` it consumes no byte of the
byte source and hands nothing to the caller, so classifying again after more
bytes have arrived gives the same result as classifying the extended buffer from
the start (prefix-stability); in particular the 4 bytes CR LF `O` `K` with no
trailing CR LF yield `WAIT` with zero bytes consumed. -/
theorem getLine_WAIT_consumes_nothing (pipe : List Char) (length : Nat)
    (h : (_getLine pipe length).code = WAIT) :
    (_getLine pipe length).pipe = pipe ∧ (_getLine pipe length).buffer = [] ∧
    (∀ (more : List Char) (length2 : Nat),
      _getLine (receive (_getLine pipe length).pipe more) length2 =
        _getLine (receive pipe more) length2) ∧
    (∀ n : Nat, 4 ≤ n →
      _getLine [CR, LF, 'O', 'K'] n = ⟨WAIT, [], [CR, LF, 'O', 'K']⟩) := by
  have hp : (_getLine pipe length).pipe = pipe ∧ (_getLine pipe length).buffer = [] := by
    unfold _getLine at h ⊢
    by_cases hc : 0 < classify (List.take length pipe)
    · simp only [hc, if_true] at h
      rw [h] at hc
      exact absurd hc (by decide)
    · simp only [hc, if_false, and_self]
  refine ⟨hp.1, hp.2, fun more length2 => by rw [hp.1], fun n hn => ?_⟩
  have e : List.take n [CR, LF, 'O', 'K'] = [CR, LF, 'O', 'K'] :=
    List.take_of_length_le (by simpa using hn)
  unfold _getLine
  rw [e]
  decide

theorem getLine_WAIT_consumes_nothing_witness :
    (_getLine [CR, LF, 'O', 'K'] 4).pipe = [CR, LF, 'O', 'K'] ∧
    (_getLine [CR, LF, 'O', 'K'] 4).buffer = [] ∧
    (∀ (more : List Char) (length2 : Nat),
      _getLine (receive (_getLine [CR, LF, 'O', 'K'] 4).pipe more) length2 =
        _getLine (receive [CR, LF, 'O', 'K'] more) length2) ∧
    (∀ n : Nat, 4 ≤ n →
      _getLine [CR, LF, 'O', 'K'] n = ⟨WAIT, [], [CR, LF, 'O', 'K']⟩) :=
  getLine_WAIT_consumes_nothing [CR, LF, 'O', 'K'] 4 (by decide)

end MDMParser

/-! ## Properties of the socket table -/

namespace MDMParser

theorem slotOf_val (s : Fin 32) : slotOf ((s.val : Nat) : Int) = some s := by
  unfold slotOf
  have h : 0 ≤ ((s.val : Nat) : Int) ∧ ((s.val : Nat) : Int).toNat < 32 := by
    have := s.isLt
    constructor <;> omega
  rw [dif_pos h]
  congr 1

/-- The scan passes over slots that are in use. -/
theorem findFree_skip (t : SockTable) :
    ∀ (k a n : Nat), a + k ≤ 32 →
      (∀ i : Fin 32, a ≤ i.val → i.val < a + k → (t i).state ≠ SockState.SOCK_FREE) →
      findFree t a (k + n) = findFree t (a + k) n := by
  intro k
  induction k with
  | zero => intro a n _ _; simp
  | succ k ih =>
    intro a n hle hused
    have ha : a < 32 := by omega
    have e : k + 1 + n = (k + n) + 1 := by omega
    rw [e, findFree, dif_pos ha, if_neg (hused ⟨a, ha⟩ (Nat.le_refl a) (by simp))]
    rw [ih (a + 1) n (by omega) (fun i h1 h2 => hused i (by omega) (by omega))]
    congr 1
    omega

/-- The scan stops at the first Free slot. -/
theorem findFree_hit (t : SockTable) (a n : Nat) (ha : a < 32)
    (hfree : (t ⟨a, ha⟩).state = SockState.SOCK_FREE) :
    findFree t a (n + 1) = some ⟨a, ha⟩ := by
  rw [findFree, dif_pos ha, if_pos hfree]

/-- With `k` slots of the range in use and room left, the scan finds slot
`first + k`. -/
theorem findFree_of_allocatedUpTo (r : SockRange) (t : SockTable) (k : Nat)
    (hr : r.first + r.count ≤ 32) (hk : k < r.count) (hinv : AllocatedUpTo r k t) :
    ∃ h : r.first + k < 32, findFree t r.first r.count = some ⟨r.first + k, h⟩ := by
  have hlt : r.first + k < 32 := by omega
  refine ⟨hlt, ?_⟩
  have e : r.count = k + ((r.count - k - 1) + 1) := by omega
  rw [e, findFree_skip t k r.first _ (by omega) hinv.1]
  exact findFree_hit t _ _ hlt (hinv.2 ⟨r.first + k, hlt⟩ (Nat.le_refl _) (by simpa using hk))

/-- With every slot of the range in use the scan finds nothing. -/
theorem findFree_of_full (r : SockRange) (t : SockTable) (hr : r.first + r.count ≤ 32)
    (hinv : AllocatedUpTo r r.count t) : findFree t r.first r.count = none := by
  have h := findFree_skip t r.count r.first 0 hr hinv.1
  rw [Nat.add_zero] at h
  rw [h, findFree]

/-- A successful allocation extends the used part of the range by one slot. -/
theorem socketSocket_of_allocatedUpTo (r : SockRange) (t : SockTable) (k : Nat)
    (p : IpProtocol) (port : Int) (hr : r.first + r.count ≤ 32) (hk : k < r.count)
    (hinv : AllocatedUpTo r k t) :
    (socketSocket r t p port RESP_OK).1 = ((r.first + k : Nat) : Int) ∧
      AllocatedUpTo r (k + 1) (socketSocket r t p port RESP_OK).2 := by
  obtain ⟨hlt, hfind⟩ := findFree_of_allocatedUpTo r t k hr hk hinv
  unfold socketSocket
  rw [hfind]
  simp only [if_true]
  refine ⟨trivial, ?_, ?_⟩
  · intro i h1 h2
    by_cases hi : i = ⟨r.first + k, hlt⟩
    · subst hi
      simp [Function.update_same]
    · rw [Function.update_noteq hi]
      refine hinv.1 i h1 ?_
      have : i.val ≠ r.first + k := fun hv => hi (Fin.ext hv)
      omega
  · intro i h1 h2
    have hi : i ≠ ⟨r.first + k, hlt⟩ := by
      intro hv
      rw [hv] at h1
      simp at h1
    rw [Function.update_noteq hi]
    exact hinv.2 i (by omega) h2

/-- A run of accepted allocations hands out the slots of the range in ascending
order. -/
theorem socketSockets_of_allocatedUpTo (r : SockRange) (hr : r.first + r.count ≤ 32) :
    ∀ (reqs : List (IpProtocol × Int × Int)) (k : Nat) (t : SockTable),
      k + reqs.length ≤ r.count → AllocatedUpTo r k t →
      (∀ q ∈ reqs, q.2.2 = RESP_OK) →
      (socketSockets r t reqs).1 =
          (List.range' (r.first + k) reqs.length).map (fun i : Nat => (i : Int)) ∧
        AllocatedUpTo r (k + reqs.length) (socketSockets r t reqs).2 := by
  intro reqs
  induction reqs with
  | nil => intro k t _ hinv _; exact ⟨rfl, hinv⟩
  | cons q qs ih =>
    intro k t hlen hinv hok
    have hlen2 : k + (qs.length + 1) ≤ r.count := by simpa using hlen
    have hq : q.2.2 = RESP_OK := hok q (List.mem_cons_self q qs)
    have hstep := socketSocket_of_allocatedUpTo r t k q.1 q.2.1 hr (by omega) hinv
    rw [← hq] at hstep
    have hrest := ih (k + 1) (socketSocket r t q.1 q.2.1 q.2.2).2 (by omega) hstep.2
      (fun q2 h2 => hok q2 (List.mem_cons_of_mem q h2))
    simp only [socketSockets, List.length_cons, List.range'_succ, List.map_cons]
    refine ⟨?_, ?_⟩
    · rw [hstep.1, hrest.1]
      rfl
    · have e : k + (qs.length + 1) = k + 1 + qs.length := by omega
      rw [e]
      exact hrest.2

/-- C8 (amended): starting from a socket table whose slots are all Free,
allocating sockets (`socketSocket`) up to the table capacity succeeds each time,
provided the modem answers every socket-create command with a successful
terminal response, and returns pairwise distinct handles; once as many sockets
as the capacity have been allocated, the next allocation attempt returns
`SOCKET_ERROR`, whatever the modem would answer, and leaves every slot unchanged. -/
theorem socketSocket_up_to_capacity (r : SockRange) (t : SockTable)
    (reqs : List (IpProtocol × Int × Int)) (hr : r.first + r.count ≤ 32)
    (hfree : ∀ i : Fin 32, (t i).state = SockState.SOCK_FREE)
    (hok : ∀ q ∈ reqs, q.2.2 = RESP_OK) (hlen : reqs.length ≤ r.count) :
    (socketSockets r t reqs).1.length = reqs.length ∧
    (∀ h ∈ (socketSockets r t reqs).1, 0 ≤ h ∧ h ≠ SOCKET_ERROR) ∧
    (socketSockets r t reqs).1.Nodup ∧
    (reqs.length = r.count → ∀ (p : IpProtocol) (port resp : Int),
      socketSocket r (socketSockets r t reqs).2 p port resp =
        (SOCKET_ERROR, (socketSockets r t reqs).2)) := by
  have hinv0 : AllocatedUpTo r 0 t :=
    ⟨fun i h1 h2 => absurd h2 (by omega), fun i _ _ => hfree i⟩
  obtain ⟨hhandles, hinv⟩ :=
    socketSockets_of_allocatedUpTo r hr reqs 0 t (by omega) hinv0 hok
  refine ⟨?_, ?_, ?_, ?_⟩
  · rw [hhandles]
    simp
  · intro h hmem
    rw [hhandles, List.mem_map] at hmem
    obtain ⟨i, _, rfl⟩ := hmem
    unfold SOCKET_ERROR
    constructor <;> omega
  · rw [hhandles]
    exact (List.nodup_range' _ _).map Nat.cast_injective
  · intro hfull p port resp
    rw [Nat.zero_add, hfull] at hinv
    unfold socketSocket
    rw [findFree_of_full r _ hr hinv]

theorem socketSocket_up_to_capacity_witness :
    (socketSockets rangeLisaU emptyTable
        (List.replicate 7 (IpProtocol.IPPROTO_TCP, -1, RESP_OK))).1.length =
      (List.replicate 7 (IpProtocol.IPPROTO_TCP, (-1 : Int), RESP_OK)).length ∧
    (∀ h ∈ (socketSockets rangeLisaU emptyTable
        (List.replicate 7 (IpProtocol.IPPROTO_TCP, -1, RESP_OK))).1,
      0 ≤ h ∧ h ≠ SOCKET_ERROR) ∧
    (socketSockets rangeLisaU emptyTable
        (List.replicate 7 (IpProtocol.IPPROTO_TCP, -1, RESP_OK))).1.Nodup ∧
    ((List.replicate 7 (IpProtocol.IPPROTO_TCP, (-1 : Int), RESP_OK)).length =
        rangeLisaU.count →
      ∀ (p : IpProtocol) (port resp : Int),
        socketSocket rangeLisaU (socketSockets rangeLisaU emptyTable
            (List.replicate 7 (IpProtocol.IPPROTO_TCP, -1, RESP_OK))).2 p port resp =
          (SOCKET_ERROR, (socketSockets rangeLisaU emptyTable
            (List.replicate 7 (IpProtocol.IPPROTO_TCP, -1, RESP_OK))).2)) :=
  socketSocket_up_to_capacity rangeLisaU emptyTable
    (List.replicate 7 (IpProtocol.IPPROTO_TCP, -1, RESP_OK)) (by decide) (fun _ => rfl)
    (by decide) (by decide)

/-- C8 as stated fails: on a table whose slots are all Free, with room for seven
sockets, the very first allocation returns `SOCKET_ERROR` when the modem answers
the socket-create command with `ERROR`. -/
theorem socketSocket_fails_on_modem_error :
    (∀ i : Fin 32, (emptyTable i).state = SockState.SOCK_FREE) ∧
    0 < rangeLisaU.count ∧
    (socketSocket rangeLisaU emptyTable IpProtocol.IPPROTO_TCP (-1) RESP_ERROR).1 =
      SOCKET_ERROR := by
  refine ⟨fun _ => rfl, by decide, by decide⟩

/-- C9: for every handle whose slot is Free, `socketClose` is a no-op that
returns success (the table is left as it was); for every stream socket in state
Created (allocated but not yet Connected), `socketSend` returns `SOCKET_ERROR`. -/
theorem socketClose_free_socketSend_created (t : SockTable) (s : Fin 32)
    (buf : List Char) (len resp : Int) :
    ((t s).state = SockState.SOCK_FREE →
      socketClose t ((s.val : Nat) : Int) resp = (true, t)) ∧
    ((t s).state = SockState.SOCK_CREATED →
      socketSend t ((s.val : Nat) : Int) buf len resp = SOCKET_ERROR) := by
  constructor
  · intro h
    unfold socketClose
    rw [slotOf_val]
    simp only [h]
  · intro h
    unfold socketSend
    rw [slotOf_val]
    simp only [h]
    rfl

theorem socketClose_free_socketSend_created_witness :
    socketClose emptyTable (((3 : Fin 32).val : Nat) : Int) RESP_OK = (true, emptyTable) ∧
    socketSend (socketSocket rangeLisaU emptyTable IpProtocol.IPPROTO_TCP (-1) RESP_OK).2
      (((1 : Fin 32).val : Nat) : Int) [] 55 RESP_OK = SOCKET_ERROR :=
  ⟨(socketClose_free_socketSend_created emptyTable 3 [] 0 RESP_OK).1 rfl,
   (socketClose_free_socketSend_created
      (socketSocket rangeLisaU emptyTable IpProtocol.IPPROTO_TCP (-1) RESP_OK).2 1 [] 55
      RESP_OK).2 (by decide)⟩

end MDMParser

/-! ## Properties of the result codes, the wait hook, the purge and the fuel gauge -/

/-- The value of `transBytes2Int` on two bytes given by their unsigned values. -/
theorem transBytes2Int_of_bytes (msb lsb : Nat) (hm : msb ≤ 255) (hl : lsb ≤ 255) :
    transBytes2Int (msb : Int) (lsb : Int) = 256 * msb + lsb := by
  have c1 : toU32 (0xFF00 : Int) = 0xFF00 := by decide
  have e1 : int_shl (msb : Int) 8 = ((msb * 256 : Nat) : Int) := by
    unfold int_shl
    rw [toU32_natCast, Nat.shiftLeft_eq]
    have e : msb % 4294967296 * 2 ^ 8 % 4294967296 = msb * 256 := by omega
    rw [e]
    exact toI32_of_lt _ (by omega)
  have e2 : int_and ((msb * 256 : Nat) : Int) 0xFF00 = ((msb * 256 : Nat) : Int) := by
    unfold int_and
    rw [toU32_natCast, c1, and_ff00]
    have e : msb * 256 % 4294967296 / 256 % 256 * 256 = msb * 256 := by omega
    rw [e]
    exact toI32_of_lt _ (by omega)
  unfold transBytes2Int
  simp only [e1, e2, toU32_natCast, and_ffff_eq_mod]
  omega

/-- What `LM4F120_bq27510_read` returns, by the results of the two transfers. -/
theorem LM4F120_bq27510_read_ret (bus : I2CBus) (cmd : Int) (bytes : Nat)
    (Rxdata : List Int) :
    (LM4F120_bq27510_read bus cmd bytes Rxdata).1 =
      if bus.writeBlock 1 1 [cmd] < 0 then bus.writeBlock 1 1 [cmd]
      else if (bus.readBlock bytes Rxdata).1 < 0 then (bus.readBlock bytes Rxdata).1
      else 0 := by
  unfold LM4F120_bq27510_read
  by_cases h1 : bus.writeBlock 1 1 [cmd] < 0
  · simp [h1]
  · by_cases h2 : (bus.readBlock bytes Rxdata).1 < 0
    · simp [h1, h2]
    · simp [h1, h2]

/-- C11: evaluation at the failing input.  When the command write returns `-2`,
`LM4F120_bq27510_read` returns `-2`, which is neither `0` nor the documented
`-1`; likewise when the write succeeds and the block read returns `-2`. -/
theorem LM4F120_bq27510_read_returns_other_value :
    (LM4F120_bq27510_read (constBus (-2) 0) 8 2 [0, 0]).1 = -2 ∧
    (LM4F120_bq27510_read (constBus 0 (-2)) 8 2 [0, 0]).1 = -2 := by
  constructor <;> decide

namespace MDMParser

/-- C12 (amended): the default wait hook `MDMParser::wait_ms(ms)` does nothing
when `ms` is 0; for every other `ms` it is exactly the platform delay
`::wait_ms(ms)`, and has no effect of its own beyond that call. -/
theorem wait_ms_default {σ : Type} (platformWait : Int → σ → σ) (ms : Int) (s : σ) :
    (ms = 0 → wait_ms platformWait ms s = s) ∧
    (ms ≠ 0 → wait_ms platformWait ms s = platformWait ms s) := by
  unfold wait_ms
  constructor
  · intro h
    simp [h]
  · intro h
    simp [h]

theorem wait_ms_default_witness :
    wait_ms clockWait 0 1000 = 1000 ∧ wait_ms clockWait 250 1000 = clockWait 250 1000 :=
  ⟨(wait_ms_default clockWait 0 1000).1 rfl,
   (wait_ms_default clockWait 250 1000).2 (by decide)⟩

/-- C12 as stated fails: with a platform delay that lets the clock advance,
`wait_ms(250)` called at time 1000 returns at time 1250: it does delay. -/
theorem wait_ms_default_delays :
    wait_ms clockWait 250 1000 = 1250 ∧ wait_ms clockWait 250 1000 ≠ 1000 := by
  constructor <;> decide

end MDMParser

namespace MDMSerial

/-- With more fuel than pending bytes the purge loop is left with every pending
byte taken out, in order, and nothing pending. -/
theorem purgeLoop_of_fuel :
    ∀ (rx : List Char) (fuel : Nat) (removed : List Char), rx.length < fuel →
      purgeLoop fuel removed rx = some (removed ++ rx, []) := by
  intro rx
  induction rx with
  | nil =>
    intro fuel removed h
    obtain ⟨f, rfl⟩ : ∃ f, fuel = f + 1 := ⟨fuel - 1, by simp at h; omega⟩
    simp [purgeLoop, readable]
  | cons c cs ih =>
    intro fuel removed h
    obtain ⟨f, rfl⟩ : ∃ f, fuel = f + 1 := ⟨fuel - 1, by simp at h; omega⟩
    have hf : cs.length < f := by simp at h; omega
    simp only [purgeLoop, readable, getc, List.isEmpty_cons, Bool.not_false, if_true,
      List.head?_cons, Option.toList_some, List.tail_cons]
    rw [ih f (removed ++ [c]) hf]
    simp

/-- C14: for every finite sequence of pending received bytes (no byte arriving
during the call), `MDMSerial::purge` terminates — any fuel above the number of
pending bytes is enough — after removing exactly the pending bytes, and leaves the
receive pipe empty: `readable()` is false on return. -/
theorem purge_removes_pending (rx : List Char) (fuel : Nat) (h : rx.length < fuel) :
    ∃ out : List Char × List Char,
      purge fuel rx = some out ∧ out.1 = rx ∧ out.2 = [] ∧ readable out.2 = false := by
  refine ⟨(rx, []), ?_, rfl, rfl, rfl⟩
  unfold purge
  rw [purgeLoop_of_fuel rx fuel [] h]
  simp

theorem purge_removes_pending_witness :
    ∃ out : List Char × List Char,
      purge 4 ['O', 'K', '+'] = some out ∧ out.1 = ['O', 'K', '+'] ∧ out.2 = [] ∧
        readable out.2 = false :=
  purge_removes_pending ['O', 'K', '+'] 4 (by decide)

end MDMSerial

namespace MDMParser

/-- Every non-zero line-type code is `k * 2^16` for some `k` in `0x11 .. 0x50`. -/
theorem lineTypes_shape (T : Int) (hT : T ∈ lineTypes) :
    ∃ k : Nat, 0 < k ∧ k < 128 ∧ T = ((k * 65536 : Nat) : Int) := by
  simp only [lineTypes, List.mem_cons, List.mem_singleton, List.not_mem_nil, or_false] at hT
  rcases hT with rfl | rfl | rfl | rfl | rfl | rfl | rfl | rfl | rfl | rfl | rfl
  · exact ⟨0x11, by decide, by decide, rfl⟩
  · exact ⟨0x12, by decide, by decide, rfl⟩
  · exact ⟨0x21, by decide, by decide, rfl⟩
  · exact ⟨0x22, by decide, by decide, rfl⟩
  · exact ⟨0x23, by decide, by decide, rfl⟩
  · exact ⟨0x24, by decide, by decide, rfl⟩
  · exact ⟨0x25, by decide, by decide, rfl⟩
  · exact ⟨0x26, by decide, by decide, rfl⟩
  · exact ⟨0x30, by decide, by decide, rfl⟩
  · exact ⟨0x40, by decide, by decide, rfl⟩
  · exact ⟨0x50, by decide, by decide, rfl⟩

/-- The value of `T | n` for a type code `T = k * 2^16` and a length `n < 2^16`. -/
theorem int_or_type_length (k m : Nat) (hk : k < 128) (hm : m < 65536) :
    int_or ((k * 65536 : Nat) : Int) (m : Int) = ((k * 65536 + m : Nat) : Int) := by
  have hor : k * 65536 ||| m = k * 65536 + m := by
    have h := shl_or_eq_add k m 16 (by omega)
    rw [Nat.shiftLeft_eq] at h
    norm_num at h
    exact h
  unfold int_or
  rw [toU32_natCast, toU32_natCast]
  have e1 : k * 65536 % 4294967296 = k * 65536 := by omega
  have e2 : m % 4294967296 = m := by omega
  rw [e1, e2, hor]
  exact toI32_of_lt _ (by omega)

/-- C15: every encoded line result `T | n`, with `T` one of the eleven non-zero
type codes and `0 <= n <= 0xFFFF`, is strictly positive as a 32-bit `int`, so it
equals none of `NOT_FOUND`, `WAIT`, `RESP_OK`, `RESP_ERROR`, `RESP_PROMPT`; those
five codes are pairwise distinct; and `TYPE` applied to each of the four negative
codes gives `0xFF0000`, which is none of the declared type codes. -/
theorem encoded_result_positive (T n : Int) (hT : T ∈ lineTypes) (h0 : 0 ≤ n)
    (h1 : n ≤ 0xFFFF) :
    (0 < int_or T n ∧ int_or T n ≤ 2147483647) ∧
    (int_or T n ≠ NOT_FOUND ∧ int_or T n ≠ WAIT ∧ int_or T n ≠ RESP_OK ∧
      int_or T n ≠ RESP_ERROR ∧ int_or T n ≠ RESP_PROMPT) ∧
    [NOT_FOUND, WAIT, RESP_OK, RESP_ERROR, RESP_PROMPT].Nodup ∧
    (TYPE WAIT = 0xFF0000 ∧ TYPE RESP_OK = 0xFF0000 ∧ TYPE RESP_ERROR = 0xFF0000 ∧
      TYPE RESP_PROMPT = 0xFF0000) ∧
    (0xFF0000 : Int) ∉ TYPE_UNKNOWN :: lineTypes := by
  obtain ⟨m, rfl⟩ := Int.eq_ofNat_of_zero_le h0
  obtain ⟨k, hk0, hk, rfl⟩ := lineTypes_shape T hT
  have hm : m < 65536 := by omega
  rw [int_or_type_length k m hk hm]
  refine ⟨⟨by omega, by omega⟩, ?_, by decide, by decide, by decide⟩
  unfold NOT_FOUND WAIT RESP_OK RESP_ERROR RESP_PROMPT
  refine ⟨by omega, by omega, by omega, by omega, by omega⟩

theorem encoded_result_positive_witness :
    (0 < int_or TYPE_TEXT 0xFFFF ∧ int_or TYPE_TEXT 0xFFFF ≤ 2147483647) ∧
    (int_or TYPE_TEXT 0xFFFF ≠ NOT_FOUND ∧ int_or TYPE_TEXT 0xFFFF ≠ WAIT ∧
      int_or TYPE_TEXT 0xFFFF ≠ RESP_OK ∧ int_or TYPE_TEXT 0xFFFF ≠ RESP_ERROR ∧
      int_or TYPE_TEXT 0xFFFF ≠ RESP_PROMPT) ∧
    [NOT_FOUND, WAIT, RESP_OK, RESP_ERROR, RESP_PROMPT].Nodup ∧
    (TYPE WAIT = 0xFF0000 ∧ TYPE RESP_OK = 0xFF0000 ∧ TYPE RESP_ERROR = 0xFF0000 ∧
      TYPE RESP_PROMPT = 0xFF0000) ∧
    (0xFF0000 : Int) ∉ TYPE_UNKNOWN :: lineTypes :=
  encoded_result_positive TYPE_TEXT 0xFFFF (by simp [lineTypes]) (by decide) (by decide)

end MDMParser

/-- C17: for every raw 16-bit temperature reading `r` in `0..65535` (units 0.1 K),
high byte in `Rxdata[1]` and low byte in `Rxdata[0]`, the `int` stored in
`temperature` by `(transBytes2Int(...))/10 - 273` equals `floor(r/10) - 273` as a
signed integer, in the range `-273..6280`; this holds also for `r < 2730`, where
the unsigned 32-bit intermediate has wrapped around (it is at least `2^31`) before
it is converted to `int`. -/
theorem temperature_eq (r : Nat) (hr : r ≤ 65535) :
    temperature ((r / 256 : Nat) : Int) ((r % 256 : Nat) : Int) = ((r / 10 : Nat) : Int) - 273 ∧
    (-273 ≤ temperature ((r / 256 : Nat) : Int) ((r % 256 : Nat) : Int) ∧
      temperature ((r / 256 : Nat) : Int) ((r % 256 : Nat) : Int) ≤ 6280) ∧
    (r < 2730 →
      2147483648 ≤ u32_sub
        (transBytes2Int ((r / 256 : Nat) : Int) ((r % 256 : Nat) : Int) / 10) (toU32 273)) := by
  have hb := transBytes2Int_of_bytes (r / 256) (r % 256) (by omega) (by omega)
  have hv : transBytes2Int ((r / 256 : Nat) : Int) ((r % 256 : Nat) : Int) = r := by
    rw [hb]
    omega
  have c : toU32 (273 : Int) = 273 := by decide
  have hmain : temperature ((r / 256 : Nat) : Int) ((r % 256 : Nat) : Int) =
      ((r / 10 : Nat) : Int) - 273 := by
    unfold temperature u32_sub toI32
    rw [hv, c]
    split <;> omega
  refine ⟨hmain, ?_, ?_⟩
  · rw [hmain]
    constructor <;> omega
  · intro hlt
    unfold u32_sub
    rw [hv, c]
    have hq : r / 10 ≤ 272 := by omega
    clear hmain hv hb
    generalize r / 10 = q at hq ⊢
    omega

theorem temperature_eq_witness :
    temperature ((2000 / 256 : Nat) : Int) ((2000 % 256 : Nat) : Int) =
      ((2000 / 10 : Nat) : Int) - 273 ∧
    (-273 ≤ temperature ((2000 / 256 : Nat) : Int) ((2000 % 256 : Nat) : Int) ∧
      temperature ((2000 / 256 : Nat) : Int) ((2000 % 256 : Nat) : Int) ≤ 6280) ∧
    (2000 < 2730 →
      2147483648 ≤ u32_sub
        (transBytes2Int ((2000 / 256 : Nat) : Int) ((2000 % 256 : Nat) : Int) / 10)
        (toU32 273)) :=
  temperature_eq 2000 (by decide)

/-! ## Properties of the modem calls of `main` -/

namespace Main

open MDMParser

theorem phase_httpCalls (e : Replies) : ∀ c ∈ httpCalls e, phase c = 3 := by
  simp only [httpCalls]
  split_ifs <;> simp [phase]

theorem phase_tcpEchoCalls (e : Replies) : ∀ c ∈ tcpEchoCalls e, phase c = 3 := by
  simp only [tcpEchoCalls]
  split_ifs <;> simp [phase]

theorem phase_udpEchoCalls (e : Replies) : ∀ c ∈ udpEchoCalls e, phase c = 3 := by
  simp only [udpEchoCalls]
  split_ifs <;> simp [phase]

/-- Every call of the socket tests and of the host lookup is at stage 3. -/
theorem phase_socketCalls (e : Replies) : ∀ c ∈ socketCalls e, phase c = 3 := by
  intro c hc
  simp only [socketCalls, List.mem_append, List.mem_singleton] at hc
  rcases hc with ((h | h) | h) | h
  · exact phase_httpCalls e c h
  · rw [h]; rfl
  · exact phase_tcpEchoCalls e c h
  · exact phase_udpEchoCalls e c h

/-- Calls that are all at stage 3 have the stage list `3, 3, ..., 3`. -/
theorem map_phase_of_stage3 (M : List Call) (h : ∀ c ∈ M, phase c = 3) :
    M.map phase = List.replicate M.length 3 := by
  induction M with
  | nil => rfl
  | cons c cs ih =>
    rw [List.map_cons, List.length_cons, List.replicate_succ, h c (List.mem_cons_self c cs),
      ih (fun d hd => h d (List.mem_cons_of_mem c hd))]

/-- A call at stage 3 is none of the four single steps. -/
theorem isStep_of_stage3 (c : Call) (h : phase c = 3) : isStep c = false := by
  cases c <;> first | rfl | (simp [phase] at h)

/-- Calls that are all at stage 3 hold none of the four single steps. -/
theorem filter_isStep_of_stage3 (M : List Call) (h : ∀ c ∈ M, phase c = 3) :
    M.filter isStep = [] := by
  induction M with
  | nil => rfl
  | cons c cs ih =>
    have hs : isStep c = false := isStep_of_stage3 c (h c (List.mem_cons_self c cs))
    rw [List.filter_cons_of_neg (by simp [hs]), ih (fun d hd => h d (List.mem_cons_of_mem c hd))]

/-- The stage list of a complete run is in ascending order. -/
theorem stages_ascending (n : Nat) :
    (0 :: 0 :: 1 :: 1 :: 2 :: 2 :: (List.replicate n 3 ++ [4, 5])).Pairwise
      (fun a b => a ≤ b) := by
  have hmem : ∀ b ∈ List.replicate n 3 ++ [4, 5], 3 ≤ b := by
    intro b hb
    simp only [List.mem_append, List.mem_replicate, List.mem_cons, List.mem_singleton,
      List.not_mem_nil, or_false] at hb
    omega
  have hP : (List.replicate n 3 ++ [4, 5]).Pairwise (fun a b => a ≤ b) := by
    induction n with
    | zero => decide
    | succ k ih =>
      rw [List.replicate_succ, List.cons_append, List.pairwise_cons]
      refine ⟨?_, ih ?_⟩
      · intro b hb
        simp only [List.mem_append, List.mem_replicate, List.mem_cons, List.mem_singleton,
          List.not_mem_nil, or_false] at hb
        omega
      · intro b hb
        simp only [List.mem_append, List.mem_replicate, List.mem_cons, List.mem_singleton,
          List.not_mem_nil, or_false] at hb
        omega
  simp only [List.pairwise_cons]
  refine ⟨?_, ?_, ?_, ?_, ?_, ?_, hP⟩ <;>
    · intro b hb
      simp only [List.mem_append, List.mem_replicate, List.mem_cons, List.mem_singleton,
        List.not_mem_nil, or_false] at hb
      omega

/-- C13: in every execution of `main` the modem lifecycle calls occur in the order
init, registerNet, join, socket operations, disconnect (`init` first, no call of an
earlier stage after one of a later stage, and each of the four single steps at
most once), and each step is attempted only if all earlier ones succeeded:
registerNet is called only if init returned true, join only if init and
registerNet both returned true, and any socket operation, `gethostbyname` or
`disconnect` only if, moreover, join returned a value other than `NOIP`. -/
theorem modemCalls_lifecycle (e : Replies) :
    (modemCalls e).head? = some (Call.init e.init) ∧
    ((modemCalls e).map phase).Pairwise (fun a b => a ≤ b) ∧
    (((modemCalls e).filter isStep).map phase).Pairwise (fun a b => a < b) ∧
    (∀ r, Call.registerNet r ∈ modemCalls e → e.init = true) ∧
    (∀ ip, Call.join ip ∈ modemCalls e → e.init = true ∧ e.registerNet = true) ∧
    (∀ c ∈ modemCalls e, phase c = 3 ∨ c = Call.disconnect →
      e.init = true ∧ e.registerNet = true ∧ e.join ≠ NOIP) := by
  cases hi : e.init
  · simp [modemCalls, hi, phase, isStep]
  · cases hr : e.registerNet
    · simp [modemCalls, hi, hr, phase, isStep]
    · cases hj : isNoIp e.join
      · have hM := phase_socketCalls e
        have hne : e.join ≠ NOIP := by simpa [isNoIp] using hj
        have htr : modemCalls e =
            Call.init true :: Call.dumpDevStatus :: Call.registerNet true ::
              Call.dumpNetStatus :: Call.join e.join :: Call.dumpIp ::
                (socketCalls e ++ [Call.disconnect, Call.ussdCommand]) := by
          simp [modemCalls, joinedCalls, hi, hr, hj]
        rw [htr]
        refine ⟨rfl, ?_, ?_, fun _ _ => rfl, fun _ _ => ⟨rfl, rfl⟩,
          fun _ _ _ => ⟨rfl, rfl, hne⟩⟩
        · simp only [List.map_cons, List.map_append, List.map_nil, phase,
            map_phase_of_stage3 (socketCalls e) hM]
          exact stages_ascending _
        · simp [List.filter_cons, List.filter_append, isStep,
            filter_isStep_of_stage3 (socketCalls e) hM, phase]
      · simp [modemCalls, hi, hr, hj, phase, isStep]

theorem modemCalls_lifecycle_witness :
    Call.registerNet true ∈ modemCalls allGood ∧ allGood.init = true ∧
    Call.join (IPADR 10 0 0 2) ∈ modemCalls allGood ∧ allGood.registerNet = true ∧
    Call.disconnect ∈ modemCalls allGood ∧ allGood.join ≠ NOIP :=
  ⟨by decide, (modemCalls_lifecycle allGood).2.2.2.1 true (by decide),
   by decide, ((modemCalls_lifecycle allGood).2.2.2.2.1 (IPADR 10 0 0 2) (by decide)).2,
   by decide,
   ((modemCalls_lifecycle allGood).2.2.2.2.2 Call.disconnect (by decide) (Or.inr rfl)).2.2⟩

/-- The observer run over two lists of calls in a row. -/
theorem observe_append (m : Held) (a b : List Call) :
    observe m (a ++ b) = (observe m a).bind (fun m2 => observe m2 b) := by
  induction a generalizing m with
  | nil => rfl
  | cons c cs ih =>
    simp only [List.cons_append, observe]
    cases m.step c with
    | none => rfl
    | some m2 => exact ih m2

/-- The HTTP request keeps the socket discipline and ends with no socket held. -/
theorem observe_httpCalls (e : Replies) :
    observe ⟨none, false⟩ (httpCalls e) = some ⟨none, false⟩ := by
  simp only [httpCalls]
  split_ifs <;> simp [observe, Held.step, *]

/-- The TCP echo test keeps the socket discipline and ends with no socket held. -/
theorem observe_tcpEchoCalls (e : Replies) :
    observe ⟨none, false⟩ (tcpEchoCalls e) = some ⟨none, false⟩ := by
  simp only [tcpEchoCalls]
  split_ifs <;> simp [observe, Held.step, *]

/-- The UDP echo test keeps the socket discipline and ends with no socket held. -/
theorem observe_udpEchoCalls (e : Replies) :
    observe ⟨none, false⟩ (udpEchoCalls e) = some ⟨none, false⟩ := by
  simp only [udpEchoCalls]
  split_ifs <;> simp [observe, Held.step, *]

theorem observe_socketCalls (e : Replies) :
    observe ⟨none, false⟩ (socketCalls e) = some ⟨none, false⟩ := by
  have hg : observe ⟨none, false⟩ [Call.gethostbyname] = some ⟨none, false⟩ := rfl
  rw [socketCalls, observe_append, observe_append, observe_append, observe_httpCalls]
  simp only [Option.some_bind, hg, observe_tcpEchoCalls, observe_udpEchoCalls]

theorem handle_httpCalls (e : Replies) :
    ∀ c ∈ httpCalls e, ∀ s, handleOf c = some s → 0 ≤ s := by
  simp only [httpCalls]
  split_ifs <;> simp [handleOf, *]

theorem handle_tcpEchoCalls (e : Replies) :
    ∀ c ∈ tcpEchoCalls e, ∀ s, handleOf c = some s → 0 ≤ s := by
  simp only [tcpEchoCalls]
  split_ifs <;> simp [handleOf, *]

theorem handle_udpEchoCalls (e : Replies) :
    ∀ c ∈ udpEchoCalls e, ∀ s, handleOf c = some s → 0 ≤ s := by
  simp only [udpEchoCalls]
  split_ifs <;> simp [handleOf, *]

theorem handle_socketCalls (e : Replies) :
    ∀ c ∈ socketCalls e, ∀ s, handleOf c = some s → 0 ≤ s := by
  intro c hc s hs
  simp only [socketCalls, List.mem_append, List.mem_singleton] at hc
  rcases hc with ((h | h) | h) | h
  · exact handle_httpCalls e c h s hs
  · rw [h] at hs
    simp [handleOf] at hs
  · exact handle_tcpEchoCalls e c h s hs
  · exact handle_udpEchoCalls e c h s hs

/-- C16: in every execution of `main` the observer of the socket discipline runs
through all modem calls without a breach and ends with no socket held.  That is:
each `socketSocket` call that returns a handle `>= 0` is followed by exactly one
`socketFree` on that handle before the next `socketSocket` call and before
`disconnect`; `socketClose` is called on a handle only after `socketConnect` on it
returned true; every socket call is made on the handle currently allocated, which
is `>= 0` and so never `SOCKET_ERROR`; hence `main` never holds more than one
allocated socket at a time. -/
theorem modemCalls_socket_discipline (e : Replies) :
    observe ⟨none, false⟩ (modemCalls e) = some ⟨none, false⟩ ∧
    (∀ c ∈ modemCalls e, ∀ s, handleOf c = some s → 0 ≤ s ∧ s ≠ SOCKET_ERROR) := by
  have hneg : ∀ s : Int, 0 ≤ s → 0 ≤ s ∧ s ≠ SOCKET_ERROR := by
    intro s hs
    unfold SOCKET_ERROR
    constructor <;> omega
  cases hi : e.init
  · simp [modemCalls, hi, observe, Held.step, handleOf]
  · cases hr : e.registerNet
    · simp [modemCalls, hi, hr, observe, Held.step, handleOf]
    · cases hj : isNoIp e.join
      · have htr : modemCalls e =
            [Call.init true, Call.dumpDevStatus, Call.registerNet true,
              Call.dumpNetStatus, Call.join e.join, Call.dumpIp] ++
                (socketCalls e ++ [Call.disconnect, Call.ussdCommand]) := by
          simp [modemCalls, joinedCalls, hi, hr, hj]
        rw [htr]
        constructor
        · have hpre : observe ⟨none, false⟩
              [Call.init true, Call.dumpDevStatus, Call.registerNet true,
                Call.dumpNetStatus, Call.join e.join, Call.dumpIp] = some ⟨none, false⟩ := rfl
          have hpost : observe ⟨none, false⟩ [Call.disconnect, Call.ussdCommand] =
              some ⟨none, false⟩ := by
            simp [observe, Held.step]
          rw [observe_append, hpre, Option.some_bind, observe_append, observe_socketCalls,
            Option.some_bind, hpost]
        · intro c hc s hs
          simp only [List.mem_append, List.mem_cons, List.mem_singleton, List.not_mem_nil,
            or_false] at hc
          rcases hc with h | h | h
          · rcases h with h | h | h | h | h | h <;> (rw [h] at hs; simp [handleOf] at hs)
          · exact hneg s (handle_socketCalls e c h s hs)
          · rcases h with h | h <;> (rw [h] at hs; simp [handleOf] at hs)
      · simp [modemCalls, hi, hr, hj, observe, Held.step, handleOf]

theorem modemCalls_socket_discipline_witness :
    observe ⟨none, false⟩ (modemCalls allGood) = some ⟨none, false⟩ ∧
    Call.socketFree 2 ∈ modemCalls allGood ∧ (0 : Int) ≤ 2 ∧ (2 : Int) ≠ SOCKET_ERROR :=
  ⟨(modemCalls_socket_discipline allGood).1, by decide,
   (modemCalls_socket_discipline allGood).2 (Call.socketFree 2) (by decide) 2 rfl⟩

end Main
